import Mathlib

/-!
Verification development for the sam-concierge repository (a WhatsApp real-estate
concierge).  The definitions below are a shallow embedding, translated from the
Python sources in `app/`:

* `extract_filters`, `apply_filters`, `rank_properties` from `app/search.py`;
* `format_price`, `format_amenities`, `truncate_text`, `add_line_breaks`,
  `format_location`, `format_property_card`, `format_property_brief`,
  `format_whatsapp_message` from `app/templates.py`;
* `summarizeOlderMessages` from `app/memory.py` (`_summarize_older_messages`).

Modelling conventions:

* Python strings are modelled as `List Char` (one entry per code point, which is
  exactly what Python's `len`/indexing count); the public entry points take and
  return `String`, whose underlying data is a `List Char`.
* Python `dict` records with optional keys become structures of `Option` fields;
  a `d[k]` access that can raise `KeyError` is `getField`, returning
  `Except String α` whose error value is the missing key's name (CPython's
  `str(KeyError(k))` renders as `'k'`, quotes included).
* `\d`, `\s` and `\w` of Python's `re` and `str.lower()` are modelled on their
  ASCII fragments, which covers every vocabulary word and claim input used here.
* CPython's `int(float(numeral) * 1_000_000)` is modelled exactly on integer
  numerals via `round53` (round to nearest, ties to even, 53-bit significand),
  assuming the numeral is below the IEEE-double overflow threshold (~1.8e308);
  this was cross-checked against CPython on randomized inputs.
* Relevance scores (`_score`) are modelled as exact (unnormalized) fractions of
  naturals; the claims proved about the ranker depend only on the presence of
  the score field, never on its rounding, so the exact-arithmetic stand-in for
  Python's float arithmetic is immaterial to them.
-/

namespace SamConcierge

/-! ## Python string primitives -/

/-- Python's `\s` (ASCII fragment): the whitespace class used by `re` and `str.split()`. -/
def pySpace (c : Char) : Bool :=
  c == ' ' || c == '\t' || c == '\n' || c == '\r' || c == '\x0b' || c == '\x0c'

/-- Character class `[\d.,]` from the price regexes. -/
def classDC (c : Char) : Bool :=
  c.isDigit || c == '.' || c == ','

/-- Python `str.lower()` (ASCII fragment). -/
def lowerStr (s : List Char) : List Char :=
  s.map Char.toLower

/-- Does the literal `lit` occur at the head of `s`?  (Used for regex literals.) -/
def startsW (lit : String) (s : List Char) : Bool :=
  lit.toList.isPrefixOf s

/-- Python's `needle in hay` substring containment. -/
def containsSub (needle : List Char) : List Char → Bool
  | [] => needle.isEmpty
  | c :: t => needle.isPrefixOf (c :: t) || containsSub needle t

/-- Scan downward from position `i` for the rightmost occurrence of `needle`. -/
def rfindAux (hay needle : List Char) : ℕ → Option ℕ
  | 0 => if needle.isPrefixOf hay then some 0 else none
  | i + 1 => if needle.isPrefixOf (hay.drop (i + 1)) then some (i + 1) else rfindAux hay needle i

/-- Python `hay.rfind(needle)`, with `none` standing for `-1`. -/
def rfindSub (hay needle : List Char) : Option ℕ :=
  rfindAux hay needle hay.length

/-- Numeric value of a (nonempty) decimal digit string. -/
def natOfDigits (ds : List Char) : ℕ :=
  ds.foldl (fun a c => a * 10 + (c.toNat - 48)) 0

/-- Python `s.replace('.', '').replace(',', '')`: strip the thousands separators. -/
def stripSeps (ds : List Char) : List Char :=
  ds.filter (fun c => !(c == '.' || c == ','))

/-- Fuel-based binary length (structural, so it reduces in the kernel). -/
def bitLenAux : ℕ → ℕ → ℕ
  | 0, _ => 0
  | f + 1, n => if n = 0 then 0 else bitLenAux f (n / 2) + 1

/-- Floor of the base-2 logarithm, adequate for every value below the IEEE-double
overflow threshold `2^1024` (the modelling range of `round53`). -/
def log2floor (n : ℕ) : ℕ :=
  bitLenAux 1100 n - 1

/-- Round a natural number to the nearest IEEE-754 double (53-bit significand,
ties to even).  For `n < 2^53` this is the identity. -/
def round53 (n : ℕ) : ℕ :=
  if n < 2 ^ 53 then n
  else
    let k := log2floor n - 52
    let q := n / 2 ^ k
    let r := n % 2 ^ k
    if r < 2 ^ (k - 1) then q * 2 ^ k
    else if 2 ^ (k - 1) < r then (q + 1) * 2 ^ k
    else if q % 2 = 0 then q * 2 ^ k else (q + 1) * 2 ^ k

/-- CPython's `int(float(numeral) * 1_000_000)` on an integer numeral `n` (below
the double overflow threshold): the numeral is first rounded to a double, the
product with the exactly representable `1_000_000` is rounded again. -/
def pyPriceValue (n : ℕ) : ℕ :=
  round53 (round53 n * 1000000)

theorem round53_eq_of_lt {n : ℕ} (h : n < 2 ^ 53) : round53 n = n := by
  unfold round53
  rw [if_pos h]

/-- In the exact range of doubles (quantity at most `⌊2^53 / 10^6⌋ = 9007199254`),
the Python conversion is the exact product with one million. -/
theorem pyPriceValue_eq_of_le {n : ℕ} (h : n ≤ 9007199254) : pyPriceValue n = n * 1000000 := by
  have h1 : n < 2 ^ 53 := lt_of_le_of_lt h (by norm_num)
  have h2 : n * 1000000 < 2 ^ 53 := by
    calc n * 1000000 ≤ 9007199254 * 1000000 := Nat.mul_le_mul_right _ h
    _ < 2 ^ 53 := by norm_num
  rw [pyPriceValue, round53_eq_of_lt h1, round53_eq_of_lt h2]

/-! ## The price regexes of `extract_filters` (app/search.py)

`re.search(r'(\d+[\d.,]*)\s*(?:millones|millon|m)(?:\s*de pesos)?', q)` and
`re.search(r'entre\s*(\d+[\d.,]*)\s*y\s*(\d+[\d.,]*)\s*(?:millones|millon|m)', q)`.

Backtracking analysis (validated against CPython's `re` on the corner cases):
at a given start, the group `\d+[\d.,]*` can consume exactly the nonempty
prefixes of the maximal `[\d.,]`-run whose first character is a digit, and the
engine tries them longest first; the trailing `\s*` is committed greedily since
none of the literal alternatives begins with whitespace, and the optional
`(?:\s*de pesos)?` never affects acceptance or the group. -/

def dropSpaces (s : List Char) : List Char :=
  s.dropWhile pySpace

/-- Acceptance of `\s*(?:millones|millon|m)` at the head of `s`. -/
def millonesAt (s : List Char) : Bool :=
  let t := dropSpaces s
  startsW "millones" t || startsW "millon" t || startsW "m" t

/-- Try group lengths `k, k-1, ..., 1` (the backtracking order of the greedy
group) and return the first prefix of `cs` whose remainder satisfies `cont`. -/
def tryLens (cs : List Char) (cont : List Char → Bool) : ℕ → Option (List Char)
  | 0 => none
  | j + 1 => if cont (cs.drop (j + 1)) then some (cs.take (j + 1)) else tryLens cs cont j

/-- Match of the bare-price pattern anchored at the head of `cs`; returns group 1. -/
def matchR1At (cs : List Char) : Option (List Char) :=
  match cs with
  | [] => none
  | c :: _ => if c.isDigit then tryLens cs millonesAt (cs.takeWhile classDC).length else none

/-- Python `re.search` for the bare-price pattern: leftmost match wins. -/
def searchR1 : List Char → Option (List Char)
  | [] => none
  | c :: t =>
    match matchR1At (c :: t) with
    | some g => some g
    | none => searchR1 t

/-- Continuation after group 1 of the range pattern: `\s*y\s*(\d+[\d.,]*)\s*(?:millones|millon|m)`,
returning group 2. -/
def contR2 (rest : List Char) : Option (List Char) :=
  let t := dropSpaces rest
  if startsW "y" t then
    let t2 := dropSpaces (t.drop 1)
    match t2 with
    | [] => none
    | c :: _ => if c.isDigit then tryLens t2 millonesAt (t2.takeWhile classDC).length else none
  else none

/-- Backtracking over group 1 of the range pattern (longest first, with the
whole continuation re-searched for every candidate). -/
def tryLensPair (cs : List Char) : ℕ → Option (List Char × List Char)
  | 0 => none
  | j + 1 =>
    match contR2 (cs.drop (j + 1)) with
    | some g2 => some (cs.take (j + 1), g2)
    | none => tryLensPair cs j

/-- Match of the range pattern `entre\s*(\d+[\d.,]*)\s*y\s*(\d+[\d.,]*)\s*(?:millones|millon|m)`
anchored at the head of `cs`; returns both groups. -/
def matchR2At (cs : List Char) : Option (List Char × List Char) :=
  if startsW "entre" cs then
    let r1 := dropSpaces (cs.drop 5)
    match r1 with
    | [] => none
    | c :: _ => if c.isDigit then tryLensPair r1 (r1.takeWhile classDC).length else none
  else none

/-- Python `re.search` for the range pattern: leftmost match wins. -/
def searchR2 : List Char → Option (List Char × List Char)
  | [] => none
  | c :: t =>
    match matchR2At (c :: t) with
    | some g => some g
    | none => searchR2 t

/-! ## The count regexes (bedrooms, bathrooms, area) -/

/-- Acceptance of `\s*(?:habitaciones|hab|habitación|cuartos|recámaras)`. -/
def bedroomsWordAt (s : List Char) : Bool :=
  let t := dropSpaces s
  startsW "habitaciones" t || startsW "hab" t || startsW "habitación" t ||
    startsW "cuartos" t || startsW "recámaras" t

/-- Acceptance of `\s*(?:baños|baño)`. -/
def bathroomsWordAt (s : List Char) : Bool :=
  let t := dropSpaces s
  startsW "baños" t || startsW "baño" t

/-- Acceptance of `\s*(?:m2|metros cuadrados|metros|m²)`. -/
def areaWordAt (s : List Char) : Bool :=
  let t := dropSpaces s
  startsW "m2" t || startsW "metros cuadrados" t || startsW "metros" t || startsW "m²" t

/-- Match of `(\d+)\s*(?:words)` anchored at the head of `cs` (group is `\d+`,
backtracked longest first exactly as the engine does). -/
def matchNumWordAt (wordAt : List Char → Bool) (cs : List Char) : Option (List Char) :=
  match cs with
  | [] => none
  | c :: _ => if c.isDigit then tryLens cs wordAt (cs.takeWhile Char.isDigit).length else none

/-- Python `re.search` for a `(\d+)\s*(?:words)` pattern. -/
def searchNumWord (wordAt : List Char → Bool) : List Char → Option (List Char)
  | [] => none
  | c :: t =>
    match matchNumWordAt wordAt (c :: t) with
    | some g => some g
    | none => searchNumWord wordAt t

/-! ## Word-boundary search for the property-type patterns -/

/-- Python's `\w` (ASCII fragment). -/
def isWordCh (c : Char) : Bool :=
  c.isAlphanum || c == '_'

/-- Right word boundary `\b` after a word-character literal. -/
def rightBdry (s : List Char) : Bool :=
  match s with
  | [] => true
  | c :: _ => !isWordCh c

/-- Left word boundary `\b` before a word-character literal, given the previous character. -/
def leftBdry (prev : Option Char) : Bool :=
  match prev with
  | none => true
  | some p => !isWordCh p

/-- Search for `\b(?:alt₁|alt₂|…)\b` (all alternatives start and end with word
characters): scan every position, carrying the previous character. -/
def boundarySearch (alts : List String) : Option Char → List Char → Bool
  | prev, cs =>
    (leftBdry prev && alts.any (fun w => startsW w cs && rightBdry (cs.drop w.toList.length))) ||
      match cs with
      | [] => false
      | c :: t => boundarySearch alts (some c) t

/-- Python `re.search(r'\b(?:alts)\b', s) is not None`. -/
def hasWordMatch (alts : List String) (s : List Char) : Bool :=
  boundarySearch alts none s

/-! ## The Extractor: `extract_filters` (app/search.py) -/

/-- Sparse filter dictionary produced by `extract_filters`; an absent key of the
Python dict is a `none` field. -/
structure Filters where
  min_price : Option ℕ
  max_price : Option ℕ
  min_bedrooms : Option ℕ
  min_bathrooms : Option ℕ
  min_area : Option ℕ
  property_type : Option String
  neighborhoods : Option (List String)
  amenities : Option (List String)
deriving DecidableEq, Repr

/-- The empty filter dictionary. -/
def noFilters : Filters :=
  ⟨none, none, none, none, none, none, none, none⟩

/-- Neighborhood gazetteer from `extract_filters`, in source order. -/
def neighborhoodsList : List String :=
  ["chapinero", "usaquen", "chico", "cedritos", "salitre",
   "poblado", "laureles", "envigado", "sabaneta", "belen",
   "estadio", "itagui", "caldas", "estrella", "robledo",
   "santa barbara", "rosales", "teusaquillo", "suba", "bosa",
   "kennedy", "candelaria", "fontibon"]

/-- Amenity vocabulary from `extract_filters`, in source order. -/
def amenitiesList : List String :=
  ["piscina", "gimnasio", "gym", "parqueadero", "parking",
   "terraza", "balcón", "balcon", "jardín", "jardin",
   "seguridad", "vigilancia", "ascensor", "bbq", "playground"]

/-- Bare-price step: `re.search` for `(\d+[\d.,]*)\s*(?:millones|millon|m)(?:\s*de pesos)?`
sets `max_price` on the empty dict. -/
def priceStep (nq : List Char) : Filters :=
  match searchR1 nq with
  | some g => { noFilters with max_price := some (pyPriceValue (natOfDigits (stripSeps g))) }
  | none => noFilters

/-- Range step: a match of `entre ... y ... millones` overwrites both price bounds. -/
def rangeStep (nq : List Char) (f : Filters) : Filters :=
  match searchR2 nq with
  | some (g1, g2) =>
    { f with
      min_price := some (pyPriceValue (natOfDigits (stripSeps g1)))
      max_price := some (pyPriceValue (natOfDigits (stripSeps g2))) }
  | none => f

/-- Bedrooms step. -/
def bedroomsStep (nq : List Char) (f : Filters) : Filters :=
  match searchNumWord bedroomsWordAt nq with
  | some d => { f with min_bedrooms := some (natOfDigits d) }
  | none => f

/-- Bathrooms step. -/
def bathroomsStep (nq : List Char) (f : Filters) : Filters :=
  match searchNumWord bathroomsWordAt nq with
  | some d => { f with min_bathrooms := some (natOfDigits d) }
  | none => f

/-- Area step. -/
def areaStep (nq : List Char) (f : Filters) : Filters :=
  match searchNumWord areaWordAt nq with
  | some d => { f with min_area := some (natOfDigits d) }
  | none => f

/-- Property-type step: apartment patterns checked before house patterns. -/
def typeStep (nq : List Char) (f : Filters) : Filters :=
  if hasWordMatch ["apartamento", "apto", "apartamentos"] nq then
    { f with property_type := some "apartamento" }
  else if hasWordMatch ["casa", "casas"] nq then
    { f with property_type := some "casa" }
  else f

/-- Neighborhood gazetteer step (`if found_neighborhoods:` truthiness). -/
def neighborhoodsStep (nq : List Char) (f : Filters) : Filters :=
  let found_nb := neighborhoodsList.filter (fun n => containsSub n.toList nq)
  if found_nb.isEmpty then f else { f with neighborhoods := some found_nb }

/-- Amenity vocabulary step (`if found_amenities:` truthiness). -/
def amenitiesStep (nq : List Char) (f : Filters) : Filters :=
  let found_am := amenitiesList.filter (fun a => containsSub a.toList nq)
  if found_am.isEmpty then f else { f with amenities := some found_am }

/-- Translation of `extract_filters(query)`: lowercase the query, then run the
price / range / bedrooms / bathrooms / area regexes, the word-boundary
property-type patterns and the substring gazetteers, in source order.  The
numeric groups go through `stripSeps` and `pyPriceValue` exactly as the source's
`int(float(s.replace('.','').replace(',','')) * 1_000_000)` does (counts use a
plain `int(...)`). -/
def extract_filters (query : String) : Filters :=
  let nq := lowerStr query.toList
  amenitiesStep nq (neighborhoodsStep nq (typeStep nq
    (areaStep nq (bathroomsStep nq (bedroomsStep nq (rangeStep nq (priceStep nq)))))))

/-- The numerals that feed the price fields of `extract_filters` on a lowered
query: both range groups when the range pattern matches, else the bare-price
group when that matches. -/
def priceNumerals (nq : List Char) : List ℕ :=
  match searchR2 nq with
  | some (g1, g2) => [natOfDigits (stripSeps g1), natOfDigits (stripSeps g2)]
  | none =>
    match searchR1 nq with
    | some g => [natOfDigits (stripSeps g)]
    | none => []

/-! Projection lemmas: the later extractor steps do not touch the price fields. -/

@[simp]
theorem bedroomsStep_min_price (nq : List Char) (f : Filters) :
    (bedroomsStep nq f).min_price = f.min_price := by
  unfold bedroomsStep
  rcases searchNumWord bedroomsWordAt nq with _ | d <;> rfl

@[simp]
theorem bedroomsStep_max_price (nq : List Char) (f : Filters) :
    (bedroomsStep nq f).max_price = f.max_price := by
  unfold bedroomsStep
  rcases searchNumWord bedroomsWordAt nq with _ | d <;> rfl

@[simp]
theorem bathroomsStep_min_price (nq : List Char) (f : Filters) :
    (bathroomsStep nq f).min_price = f.min_price := by
  unfold bathroomsStep
  rcases searchNumWord bathroomsWordAt nq with _ | d <;> rfl

@[simp]
theorem bathroomsStep_max_price (nq : List Char) (f : Filters) :
    (bathroomsStep nq f).max_price = f.max_price := by
  unfold bathroomsStep
  rcases searchNumWord bathroomsWordAt nq with _ | d <;> rfl

@[simp]
theorem areaStep_min_price (nq : List Char) (f : Filters) :
    (areaStep nq f).min_price = f.min_price := by
  unfold areaStep
  rcases searchNumWord areaWordAt nq with _ | d <;> rfl

@[simp]
theorem areaStep_max_price (nq : List Char) (f : Filters) :
    (areaStep nq f).max_price = f.max_price := by
  unfold areaStep
  rcases searchNumWord areaWordAt nq with _ | d <;> rfl

@[simp]
theorem typeStep_min_price (nq : List Char) (f : Filters) :
    (typeStep nq f).min_price = f.min_price := by
  unfold typeStep
  split_ifs <;> rfl

@[simp]
theorem typeStep_max_price (nq : List Char) (f : Filters) :
    (typeStep nq f).max_price = f.max_price := by
  unfold typeStep
  split_ifs <;> rfl

@[simp]
theorem neighborhoodsStep_min_price (nq : List Char) (f : Filters) :
    (neighborhoodsStep nq f).min_price = f.min_price := by
  simp only [neighborhoodsStep]
  split_ifs <;> rfl

@[simp]
theorem neighborhoodsStep_max_price (nq : List Char) (f : Filters) :
    (neighborhoodsStep nq f).max_price = f.max_price := by
  simp only [neighborhoodsStep]
  split_ifs <;> rfl

@[simp]
theorem amenitiesStep_min_price (nq : List Char) (f : Filters) :
    (amenitiesStep nq f).min_price = f.min_price := by
  simp only [amenitiesStep]
  split_ifs <;> rfl

@[simp]
theorem amenitiesStep_max_price (nq : List Char) (f : Filters) :
    (amenitiesStep nq f).max_price = f.max_price := by
  simp only [amenitiesStep]
  split_ifs <;> rfl

/-- Closed form of the price fields of the extractor step chain: `min_price`
comes from the range pattern alone, `max_price` from the range pattern when it
matches and otherwise from the bare-price pattern. -/
theorem steps_min_max (nq : List Char) :
    ((amenitiesStep nq (neighborhoodsStep nq (typeStep nq
        (areaStep nq (bathroomsStep nq (bedroomsStep nq (rangeStep nq (priceStep nq)))))))).min_price =
      Option.map (fun p => pyPriceValue (natOfDigits (stripSeps p.1))) (searchR2 nq)) ∧
    ((amenitiesStep nq (neighborhoodsStep nq (typeStep nq
        (areaStep nq (bathroomsStep nq (bedroomsStep nq (rangeStep nq (priceStep nq)))))))).max_price =
      (match searchR2 nq with
       | some p => some (pyPriceValue (natOfDigits (stripSeps p.2)))
       | none => Option.map (fun g => pyPriceValue (natOfDigits (stripSeps g))) (searchR1 nq))) := by
  rcases h2 : searchR2 nq with _ | ⟨g1, g2⟩ <;>
  rcases h1 : searchR1 nq with _ | g <;>
  simp [rangeStep, priceStep, noFilters, h1, h2]

/-- Specialization of `steps_min_max` to `extract_filters`. -/
theorem extract_min_max (q : String) :
    (extract_filters q).min_price =
      Option.map (fun p => pyPriceValue (natOfDigits (stripSeps p.1))) (searchR2 (lowerStr q.toList)) ∧
    (extract_filters q).max_price =
      (match searchR2 (lowerStr q.toList) with
       | some p => some (pyPriceValue (natOfDigits (stripSeps p.2)))
       | none =>
         Option.map (fun g => pyPriceValue (natOfDigits (stripSeps g))) (searchR1 (lowerStr q.toList))) :=
  steps_min_max (lowerStr q.toList)

/-! ## Claims C1, C2, C5, C10 (the Extractor) -/

set_option maxRecDepth 8000 in
/-- Claim C1 is false on the code: `extract_filters` has no "desde/mínimo"
branch at all, so on the query "desde 300 millones" (which the claim says must
yield `min_price = 300,000,000` and no `max_price` from the phrase) the
bare-amount rule fires instead: `min_price` is absent and
`max_price = 300,000,000`. -/
theorem C1_counterexample :
    (extract_filters "desde 300 millones").min_price = none ∧
    (extract_filters "desde 300 millones").max_price = some 300000000 := by
  constructor <;> decide

/-- Claim C1, amended: a query whose lowered text matches the bare-price
pattern with numeral group `g` (as "desde X millones" does) and does not match
the "entre ... y ... millones" range pattern gets `max_price = X * 1,000,000`
(exactly, whenever `X` is within the exact double range `X ≤ 9007199254`) and
no `min_price` at all. -/
theorem C1_bare_price_sets_only_max (q : String) (g : List Char)
    (hr2 : searchR2 (lowerStr q.toList) = none)
    (hr1 : searchR1 (lowerStr q.toList) = some g)
    (hb : natOfDigits (stripSeps g) ≤ 9007199254) :
    (extract_filters q).min_price = none ∧
    (extract_filters q).max_price = some (natOfDigits (stripSeps g) * 1000000) := by
  obtain ⟨hmin, hmax⟩ := extract_min_max q
  rw [hr2] at hmin hmax
  simp only [Option.map_none'] at hmin
  simp only [hr1, Option.map_some'] at hmax
  exact ⟨hmin, by rw [hmax, pyPriceValue_eq_of_le hb]⟩

set_option maxRecDepth 8000 in
/-- Witness for `C1_bare_price_sets_only_max` at the query "desde 300 millones". -/
theorem C1_witness :
    searchR2 (lowerStr (String.toList "desde 300 millones")) = none ∧
    searchR1 (lowerStr (String.toList "desde 300 millones")) = some ['3', '0', '0'] ∧
    (extract_filters "desde 300 millones").min_price = none ∧
    (extract_filters "desde 300 millones").max_price = some (natOfDigits (stripSeps ['3', '0', '0']) * 1000000) := by
  have h1 : searchR2 (lowerStr (String.toList "desde 300 millones")) = none := by decide
  have h2 : searchR1 (lowerStr (String.toList "desde 300 millones")) = some ['3', '0', '0'] := by decide
  have h3 := C1_bare_price_sets_only_max "desde 300 millones" ['3', '0', '0'] h1 h2 (by decide)
  exact ⟨h1, h2, h3.1, h3.2⟩

set_option maxRecDepth 8000 in
/-- Claim C2 is false on the code in its general part: the parsed quantity goes
through CPython float conversion, so for the query
"entre 9007199254740993 y 2 millones" the extractor sets
`min_price = 9,007,199,254,740,992,000,000`, which is not
`9007199254740993 * 1,000,000` (the numeral exceeds the 53-bit exact integer
range of doubles). -/
theorem C2_counterexample :
    (extract_filters "entre 9007199254740993 y 2 millones").min_price = some 9007199254740992000000 ∧
    (9007199254740992000000 : ℕ) ≠ 9007199254740993 * 1000000 := by
  constructor <;> decide

set_option maxRecDepth 8000 in
/-- Claim C2, amended: a text matching "entre X y Y millones" yields
`min_price = X * 1,000,000` and `max_price = Y * 1,000,000` whenever the parsed
quantities are within the exact double range (at most 9,007,199,254); in
general the values are the float-converted `int(float(X) * 1_000_000)`.  The
concrete scenario-B query "entre 300 y 600 millones" yields exactly
`min_price = 300,000,000`, `max_price = 600,000,000` and no other keys. -/
theorem C2_range_sets_min_max (q : String) (g1 g2 : List Char)
    (hr2 : searchR2 (lowerStr q.toList) = some (g1, g2))
    (h1 : natOfDigits (stripSeps g1) ≤ 9007199254)
    (h2 : natOfDigits (stripSeps g2) ≤ 9007199254) :
    (extract_filters q).min_price = some (natOfDigits (stripSeps g1) * 1000000) ∧
    (extract_filters q).max_price = some (natOfDigits (stripSeps g2) * 1000000) ∧
    extract_filters "entre 300 y 600 millones" =
      { noFilters with min_price := some 300000000, max_price := some 600000000 } := by
  obtain ⟨hmin, hmax⟩ := extract_min_max q
  rw [hr2] at hmin hmax
  simp only [Option.map_some'] at hmin
  simp at hmax
  refine ⟨by rw [hmin, pyPriceValue_eq_of_le h1], by rw [hmax, pyPriceValue_eq_of_le h2], ?_⟩
  decide

set_option maxRecDepth 8000 in
/-- Witness for `C2_range_sets_min_max` at the query "entre 300 y 600 millones". -/
theorem C2_witness :
    searchR2 (lowerStr (String.toList "entre 300 y 600 millones")) = some (['3', '0', '0'], ['6', '0', '0']) ∧
    (extract_filters "entre 300 y 600 millones").min_price = some (natOfDigits (stripSeps ['3', '0', '0']) * 1000000) ∧
    (extract_filters "entre 300 y 600 millones").max_price = some (natOfDigits (stripSeps ['6', '0', '0']) * 1000000) := by
  have h0 : searchR2 (lowerStr (String.toList "entre 300 y 600 millones")) = some (['3', '0', '0'], ['6', '0', '0']) := by
    decide
  have h := C2_range_sets_min_max "entre 300 y 600 millones" ['3', '0', '0'] ['6', '0', '0'] h0 (by decide) (by decide)
  exact ⟨h0, h.1, h.2.1⟩

set_option maxRecDepth 8000 in
/-- Claim C5 is false on the code: on the query "1000000000001 millones" the
float conversion makes `max_price = 1,000,000,000,000,999,936`, which is not a
multiple of 1,000,000. -/
theorem C5_counterexample :
    (extract_filters "1000000000001 millones").max_price = some 1000000000000999936 ∧
    ¬ (1000000 ∣ 1000000000000999936) := by
  constructor <;> decide

/-- Claim C5, amended: whenever every price numeral parsed from the query is in
the exact double range (at most 9,007,199,254 — any realistic price), the price
fields the extractor produces are multiples of 1,000,000; in general they are
float-converted values (and every produced value is a natural number, as are the
bedroom/bathroom/area bounds, by construction of the embedding). -/
theorem C5_price_bounds (q : String)
    (hb : ∀ n ∈ priceNumerals (lowerStr q.toList), n ≤ 9007199254) :
    (∀ v, (extract_filters q).min_price = some v → 1000000 ∣ v) ∧
    (∀ v, (extract_filters q).max_price = some v → 1000000 ∣ v) := by
  obtain ⟨hmin, hmax⟩ := extract_min_max q
  rcases hr2 : searchR2 (lowerStr q.toList) with _ | ⟨g1, g2⟩
  · rcases hr1 : searchR1 (lowerStr q.toList) with _ | g
    · rw [hr2] at hmin hmax
      simp only [Option.map_none'] at hmin
      simp only [hr1, Option.map_none'] at hmax
      refine ⟨fun v hv => ?_, fun v hv => ?_⟩
      · rw [hmin] at hv; cases hv
      · rw [hmax] at hv; cases hv
    · rw [hr2] at hmin hmax
      simp only [Option.map_none'] at hmin
      simp only [hr1, Option.map_some'] at hmax
      have hpn : priceNumerals (lowerStr q.toList) = [natOfDigits (stripSeps g)] := by
        unfold priceNumerals
        rw [hr2, hr1]
      have hbg : natOfDigits (stripSeps g) ≤ 9007199254 := by
        apply hb
        rw [hpn]
        exact List.mem_singleton_self _
      refine ⟨fun v hv => ?_, fun v hv => ?_⟩
      · rw [hmin] at hv; cases hv
      · rw [hmax] at hv
        obtain rfl : pyPriceValue (natOfDigits (stripSeps g)) = v := by injection hv
        rw [pyPriceValue_eq_of_le hbg]
        exact dvd_mul_left 1000000 _
  · rw [hr2] at hmin hmax
    simp only [Option.map_some'] at hmin
    simp at hmax
    have hpn : priceNumerals (lowerStr q.toList) =
        [natOfDigits (stripSeps g1), natOfDigits (stripSeps g2)] := by
      unfold priceNumerals
      rw [hr2]
    have hb1 : natOfDigits (stripSeps g1) ≤ 9007199254 := by
      apply hb
      rw [hpn]
      exact List.mem_cons_self _ _
    have hb2 : natOfDigits (stripSeps g2) ≤ 9007199254 := by
      apply hb
      rw [hpn]
      exact List.mem_cons_of_mem _ (List.mem_singleton_self _)
    refine ⟨fun v hv => ?_, fun v hv => ?_⟩
    · rw [hmin] at hv
      obtain rfl : pyPriceValue (natOfDigits (stripSeps g1)) = v := by injection hv
      rw [pyPriceValue_eq_of_le hb1]
      exact dvd_mul_left 1000000 _
    · rw [hmax] at hv
      obtain rfl : pyPriceValue (natOfDigits (stripSeps g2)) = v := by injection hv
      rw [pyPriceValue_eq_of_le hb2]
      exact dvd_mul_left 1000000 _

set_option maxRecDepth 8000 in
/-- Witness for `C5_price_bounds` at the query "entre 300 y 600 millones". -/
theorem C5_witness :
    (∀ n ∈ priceNumerals (lowerStr (String.toList "entre 300 y 600 millones")), n ≤ 9007199254) ∧
    ((∀ v, (extract_filters "entre 300 y 600 millones").min_price = some v → 1000000 ∣ v) ∧
     (∀ v, (extract_filters "entre 300 y 600 millones").max_price = some v → 1000000 ∣ v)) := by
  have hb : ∀ n ∈ priceNumerals (lowerStr (String.toList "entre 300 y 600 millones")), n ≤ 9007199254 := by
    decide
  exact ⟨hb, C5_price_bounds "entre 300 y 600 millones" hb⟩

/-- Claim C10: for every query, if the extractor's output contains `min_price`
then it also contains `max_price` — a min-only price constraint is never
produced, because `min_price` is only written by the range branch, which always
writes `max_price` with it. -/
theorem C10_min_price_implies_max_price (q : String)
    (h : ((extract_filters q).min_price).isSome = true) :
    ((extract_filters q).max_price).isSome = true := by
  obtain ⟨hmin, hmax⟩ := extract_min_max q
  rcases hr2 : searchR2 (lowerStr q.toList) with _ | ⟨g1, g2⟩
  · rw [hr2] at hmin
    simp only [Option.map_none'] at hmin
    rw [hmin] at h
    cases h
  · rw [hr2] at hmax
    simp at hmax
    simp [hmax]

set_option maxRecDepth 8000 in
/-- Witness for `C10_min_price_implies_max_price` at "entre 1 y 2 millones". -/
theorem C10_witness :
    ((extract_filters "entre 1 y 2 millones").min_price).isSome = true ∧
    ((extract_filters "entre 1 y 2 millones").max_price).isSome = true := by
  have h : ((extract_filters "entre 1 y 2 millones").min_price).isSome = true := by decide
  exact ⟨h, C10_min_price_implies_max_price "entre 1 y 2 millones" h⟩

/-! ## The Filter: `apply_filters` (app/search.py)

Property dictionaries are records of optional fields; a Python `p[k]` access is
`getField`, raising (returning) the key name on a missing key, exactly where the
source would raise `KeyError`.  The list comprehensions of the source evaluate
their predicate left to right and propagate the first error, which `filterE`
mirrors. -/

/-- Relevance score value: an exact (unnormalized) fraction `num / den` of
naturals, the embedding's stand-in for the Python float held under `_score`
(every score component is non-negative). -/
structure Score where
  num : ℕ
  den : ℕ
deriving DecidableEq, Repr

/-- Fraction comparison by cross multiplication. -/
def scoreLe (a b : Score) : Bool :=
  decide (a.num * b.den ≤ b.num * a.den)

/-- Fraction addition without normalization. -/
def scoreAdd (a b : Score) : Score :=
  ⟨a.num * b.den + b.num * a.den, a.den * b.den⟩

/-- Python `min` on scores: the first argument wins ties. -/
def scoreMin (a b : Score) : Score :=
  if scoreLe a b then a else b

/-- A property dictionary: every key that any pipeline stage reads, `none`
meaning the key is absent.  `score` is the `_score` key the ranker writes. -/
structure Property where
  id : Option String
  title : Option String
  price : Option ℕ
  bedrooms : Option ℕ
  bathrooms : Option ℕ
  area : Option ℕ
  neighborhood : Option String
  description : Option String
  url : Option String
  amenities : Option (List String)
  construction_year : Option ℕ
  stratum : Option ℕ
  score : Option Score
deriving DecidableEq, Repr

/-- The empty property dictionary. -/
def noProp : Property :=
  ⟨none, none, none, none, none, none, none, none, none, none, none, none, none⟩

/-- Python `d[k]`: value when present, `KeyError k` when absent. -/
def getField (o : Option α) (key : String) : Except String α :=
  match o with
  | some v => Except.ok v
  | none => Except.error key

instance exceptDecEq {ε α : Type} [DecidableEq ε] [DecidableEq α] : DecidableEq (Except ε α) := fun x y =>
  match x, y with
  | .error a, .error b =>
    match decEq a b with
    | isTrue h => isTrue (by rw [h])
    | isFalse h => isFalse (by intro hc; injection hc; contradiction)
  | .ok a, .ok b =>
    match decEq a b with
    | isTrue h => isTrue (by rw [h])
    | isFalse h => isFalse (by intro hc; injection hc; contradiction)
  | .error _, .ok _ => isFalse (by intro hc; cases hc)
  | .ok _, .error _ => isFalse (by intro hc; cases hc)

/-- A Python list comprehension `[a for a in l if pred(a)]` whose predicate can
raise: evaluates left to right, keeps order, propagates the first error. -/
def filterE (pred : α → Except ε Bool) : List α → Except ε (List α)
  | [] => .ok []
  | a :: t =>
    match pred a with
    | .error e => .error e
    | .ok b =>
      match filterE pred t with
      | .error e => .error e
      | .ok r => .ok (if b then a :: r else r)

/-- A Python loop mapping a fallible function over a list, first error wins. -/
def mapE (f : α → Except ε β) : List α → Except ε (List β)
  | [] => .ok []
  | a :: t =>
    match f a with
    | .error e => .error e
    | .ok b =>
      match mapE f t with
      | .error e => .error e
      | .ok r => .ok (b :: r)

/-- Predicate of the `min_price` step: `p['price'] >= filters['min_price']`. -/
def minPricePred (v : ℕ) (p : Property) : Except String Bool := do
  let pr ← getField p.price "price"
  pure (decide (v ≤ pr))

/-- Predicate of the `max_price` step: `p['price'] <= filters['max_price']`. -/
def maxPricePred (v : ℕ) (p : Property) : Except String Bool := do
  let pr ← getField p.price "price"
  pure (decide (pr ≤ v))

/-- Predicate of the `min_bedrooms` step. -/
def minBedroomsPred (v : ℕ) (p : Property) : Except String Bool := do
  let b ← getField p.bedrooms "bedrooms"
  pure (decide (v ≤ b))

/-- Predicate of the `min_bathrooms` step. -/
def minBathroomsPred (v : ℕ) (p : Property) : Except String Bool := do
  let b ← getField p.bathrooms "bathrooms"
  pure (decide (v ≤ b))

/-- Predicate of the `min_area` step. -/
def minAreaPred (v : ℕ) (p : Property) : Except String Bool := do
  let a ← getField p.area "area"
  pure (decide (v ≤ a))

/-- Predicate of the neighborhood step: the inner `for` loop only touches
`p['neighborhood']` when the requested list is nonempty, and keeps `p` when any
requested name occurs (case-insensitively) in the property's neighborhood. -/
def neighborhoodsPred (ns : List String) (p : Property) : Except String Bool :=
  if ns.isEmpty then pure false
  else do
    let nb ← getField p.neighborhood "neighborhood"
    pure (ns.any (fun n => containsSub (lowerStr n.toList) (lowerStr nb.toList)))

/-- Predicate of the property-type step: `property_type.lower() in p['title'].lower()`. -/
def typePred (ty : String) (p : Property) : Except String Bool := do
  let t ← getField p.title "title"
  pure (containsSub (lowerStr ty.toList) (lowerStr t.toList))

/-- All `apply_filters` steps before the amenity step, in source order. -/
def applyFiltersPre (properties : List Property) (filters : Filters) : Except String (List Property) := do
  let fp ←
    match filters.min_price with
    | some v => filterE (minPricePred v) properties
    | none => pure properties
  let fp ←
    match filters.max_price with
    | some v => filterE (maxPricePred v) fp
    | none => pure fp
  let fp ←
    match filters.min_bedrooms with
    | some v => filterE (minBedroomsPred v) fp
    | none => pure fp
  let fp ←
    match filters.min_bathrooms with
    | some v => filterE (minBathroomsPred v) fp
    | none => pure fp
  let fp ←
    match filters.min_area with
    | some v => filterE (minAreaPred v) fp
    | none => pure fp
  let fp ←
    match filters.neighborhoods with
    | some ns => filterE (neighborhoodsPred ns) fp
    | none => pure fp
  match filters.property_type with
  | some ty => filterE (typePred ty) fp
  | none => pure fp

/-- Does property `p` offer one of the requested amenities?  The source lowers
only the property side: `amenity in [a.lower() for a in p['amenities']]`; a
property without the `amenities` key never matches. -/
def amenityMatch (ams : List String) (p : Property) : Bool :=
  match p.amenities with
  | some pa => ams.any (fun a => (pa.map (fun x => lowerStr x.toList)).contains a.toList)
  | none => false

/-- The amenity soft-filter step: narrow to the matching properties only when at
least one property matches (`if amenity_properties:`), otherwise keep the input. -/
def amenityStep (filters : Filters) (fp : List Property) : List Property :=
  match filters.amenities with
  | some ams =>
    let amenity_properties := fp.filter (amenityMatch ams)
    if amenity_properties.isEmpty then fp else amenity_properties
  | none => fp

/-- Translation of `apply_filters(properties, filters)`: the non-amenity steps
(each of which can raise `KeyError`) followed by the amenity soft-filter. -/
def apply_filters (properties : List Property) (filters : Filters) : Except String (List Property) := do
  let fp ← applyFiltersPre properties filters
  pure (amenityStep filters fp)

/-! ## The Ranker: `rank_properties` (app/search.py) -/

/-- Python `str.split()`: split on whitespace runs, no empty words. -/
def splitWs (s : List Char) : List (List Char) :=
  let r := s.foldr
    (fun c p =>
      if pySpace c then (if p.2.isEmpty then p else (p.2 :: p.1, ([] : List Char)))
      else (p.1, c :: p.2))
    (([] : List (List Char)), ([] : List Char))
  if r.2.isEmpty then r.1 else r.2 :: r.1

/-- Scoring pass of `rank_properties` for one property: keyword overlap over
title+neighborhood+description, a half point per query word occurring in the
neighborhood, and a capped amenity-count boost; the result is written under the
`_score` key.  Field accesses can raise `KeyError` exactly as the source does. -/
def scoreProp (query_words : List (List Char)) (p : Property) : Except String Property := do
  let t ← getField p.title "title"
  let nb ← getField p.neighborhood "neighborhood"
  let d ← getField p.description "description"
  let property_text := lowerStr (t.toList ++ ' ' :: nb.toList ++ ' ' :: d.toList)
  let matching_words := (query_words.filter (fun w => containsSub w property_text)).length
  let base : Score := if query_words.isEmpty then ⟨0, 1⟩ else ⟨matching_words, query_words.length⟩
  let nbBoost : Score := ⟨(query_words.filter (fun w => containsSub w (lowerStr nb.toList))).length, 2⟩
  let amBoost : Score :=
    match p.amenities with
    | some pa => scoreMin ⟨pa.length, 10⟩ ⟨1, 2⟩
    | none => ⟨0, 1⟩
  pure { p with score := some (scoreAdd (scoreAdd base nbBoost) amBoost) }

/-- Stable insertion: place `a` before the first element `b` with `le a b`.
With a total-preorder comparator this produces exactly the output of Python's
stable `sorted`. -/
def sortedInsert (le : α → α → Bool) (a : α) : List α → List α
  | [] => [a]
  | b :: t => if le a b then a :: b :: t else b :: sortedInsert le a t

/-- Stable sort by repeated insertion (extensionally equal to any stable sort
with the same total-preorder comparator, hence to Python's `sorted`). -/
def stableSort (le : α → α → Bool) : List α → List α
  | [] => []
  | a :: t => sortedInsert le a (stableSort le t)

theorem mem_sortedInsert (le : α → α → Bool) (a x : α) :
    ∀ l : List α, x ∈ sortedInsert le a l ↔ x = a ∨ x ∈ l := by
  intro l
  induction l with
  | nil => simp [sortedInsert]
  | cons b t ih =>
    simp only [sortedInsert]
    split_ifs with h
    · simp [List.mem_cons]
    · simp only [List.mem_cons, ih]
      tauto

theorem mem_stableSort (le : α → α → Bool) (x : α) :
    ∀ l : List α, x ∈ stableSort le l ↔ x ∈ l := by
  intro l
  induction l with
  | nil => simp [stableSort]
  | cons a t ih =>
    simp only [stableSort, mem_sortedInsert, List.mem_cons, ih]

/-- The comparator of `sorted(properties, key=lambda p: p.get('_score', 0), reverse=True)`:
`a` sorts before `b` when `b`'s score is at most `a`'s (a total preorder; ties
keep original order by stability). -/
def scoreDescLe (a b : Property) : Bool :=
  scoreLe (b.score.getD ⟨0, 1⟩) (a.score.getD ⟨0, 1⟩)

/-- Translation of `rank_properties(properties, query)`: fewer than two
properties are returned unchanged; otherwise every property is scored against
the deduplicated lowercase query words and the list is stably sorted by
descending score (`sorted(..., reverse=True)` keeps original order on ties). -/
def rank_properties (properties : List Property) (query : String) : Except String (List Property) :=
  if properties.length < 2 then .ok properties
  else
    match mapE (scoreProp ((splitWs (lowerStr query.toList)).eraseDups)) properties with
    | .error e => .error e
    | .ok scored => .ok (stableSort scoreDescLe scored)

/-! ## Claims C3, C4, C9 (Filter and Ranker) -/

@[simp]
theorem exBind_ok (a : α) (f : α → Except ε β) :
    (Except.ok a : Except ε α) >>= f = f a := rfl

@[simp]
theorem exBind_error (e : ε) (f : α → Except ε β) :
    (Except.error e : Except ε α) >>= f = Except.error e := rfl

@[simp]
theorem exPure (a : α) : (pure a : Except ε α) = Except.ok a := rfl

/-- The `min_price` comprehension raises `KeyError 'price'` as soon as any
property of the list lacks the `price` key. -/
theorem filterE_minPricePred_error (v : ℕ) :
    ∀ l : List Property, (∃ p ∈ l, p.price = none) → filterE (minPricePred v) l = .error "price" := by
  intro l
  induction l with
  | nil =>
    rintro ⟨p, hp, hnone⟩
    cases hp
  | cons a t ih =>
    rintro ⟨p, hp, hnone⟩
    cases ha : a.price with
    | none => simp [filterE, minPricePred, getField, ha]
    | some pr =>
      have hmem : p ∈ t := by
        rcases List.mem_cons.mp hp with rfl | hm
        · rw [ha] at hnone
          cases hnone
        · exact hm
      have ht := ih ⟨p, hmem, hnone⟩
      simp [filterE, minPricePred, getField, ha, ht]

/-- Claim C3 is false on the code: with an active `min_price` filter, a
property record lacking the `price` field is not silently excluded — the
Filter raises `KeyError 'price'` past its boundary. -/
theorem C3_counterexample :
    apply_filters [{ noProp with title := some "Sin precio" }]
      { noFilters with min_price := some 1 } = Except.error "price" := by
  rfl

/-- Claim C3, amended: `apply_filters` raises (returns) `KeyError 'price'`
whenever `min_price` is active and any property of the input list lacks the
`price` field, instead of excluding that property; the same `p[field]` access
pattern governs every other non-amenity step, and only the amenity step
tolerates missing data. -/
theorem C3_missing_field_raises (props : List Property) (filters : Filters) (v : ℕ)
    (hmin : filters.min_price = some v)
    (hmiss : ∃ p ∈ props, p.price = none) :
    apply_filters props filters = Except.error "price" := by
  have h1 : filterE (minPricePred v) props = .error "price" :=
    filterE_minPricePred_error v props hmiss
  unfold apply_filters applyFiltersPre
  rw [hmin]
  simp [h1]

/-- Witness for `C3_missing_field_raises` on a one-element catalog. -/
theorem C3_witness :
    ({ noFilters with min_price := some 1 } : Filters).min_price = some 1 ∧
    (∃ p ∈ [{ noProp with title := some "Sin precio" }], p.price = none) ∧
    apply_filters [{ noProp with title := some "Sin precio" }]
      { noFilters with min_price := some 1 } = Except.error "price" := by
  have h1 : ({ noFilters with min_price := some 1 } : Filters).min_price = some 1 := rfl
  have h2 : ∃ p ∈ [{ noProp with title := some "Sin precio" }], p.price = none :=
    ⟨{ noProp with title := some "Sin precio" }, List.mem_singleton_self _, rfl⟩
  exact ⟨h1, h2, C3_missing_field_raises _ _ 1 h1 h2⟩

/-- Spec-side amenity matching, stated from the claim's words: a requested
amenity matches a property amenity case-insensitively, i.e. with both sides
case-folded.  (The source lowers only the property side; this definition exists
to state claim C4 and compare it with the code's `amenityMatch`.) -/
def specCiAmenMatch (ams : List String) (p : Property) : Bool :=
  match p.amenities with
  | some pa => ams.any (fun a => pa.any (fun x => lowerStr x.toList == lowerStr a.toList))
  | none => false

/-- First counterexample property: offers "Piscina" (capitalized, as catalog
data is). -/
def cp1 : Property := { noProp with amenities := some ["Piscina"] }

/-- Second counterexample property: an empty amenity list. -/
def cp2 : Property := { noProp with amenities := some [] }

/-- A filter set requesting the capitalized amenity "Piscina". -/
def cF : Filters := { noFilters with amenities := some ["Piscina"] }

/-- Claim C4 is false on the code as universally stated: with requested amenity
"Piscina" (capitalized), property `cp1` matches case-insensitively, so the
claim demands the result `[cp1]`; but the code compares the requested string
verbatim against the lowered property amenities, finds no match, and
soft-skips, returning both properties. -/
theorem C4_counterexample :
    specCiAmenMatch ["Piscina"] cp1 = true ∧
    specCiAmenMatch ["Piscina"] cp2 = false ∧
    apply_filters [cp1, cp2] cF = Except.ok [cp1, cp2] ∧
    apply_filters [cp1, cp2] cF ≠ Except.ok [cp1] := by
  refine ⟨by decide, by decide, by decide, by decide⟩

/-- Claim C4, amended: with matching as the code computes it (requested string
equal to the case-folded property amenity — case-insensitive only on the
property side, which coincides with case-insensitive matching for the lowercase
amenities the Extractor produces), the amenity step on the survivors `S` of the
preceding steps soft-skips when no property of `S` matches and otherwise keeps
exactly the matching subsequence of `S`. -/
theorem C4_amenity_soft_skip (props : List Property) (f : Filters) (ams : List String)
    (S : List Property)
    (hams : f.amenities = some ams)
    (hpre : applyFiltersPre props f = .ok S) :
    ((∀ p ∈ S, amenityMatch ams p = false) → apply_filters props f = .ok S) ∧
    ((∃ p ∈ S, amenityMatch ams p = true) →
       apply_filters props f = .ok (S.filter (amenityMatch ams))) := by
  have hall : apply_filters props f = .ok (amenityStep f S) := by
    unfold apply_filters
    rw [hpre]
    rfl
  constructor
  · intro hnone
    have hnil : S.filter (amenityMatch ams) = [] := by
      apply List.filter_eq_nil_iff.mpr
      intro a ha
      simp [hnone a ha]
    rw [hall]
    unfold amenityStep
    rw [hams]
    simp [hnil]
  · rintro ⟨p, hp, hm⟩
    have hmem : p ∈ S.filter (amenityMatch ams) := List.mem_filter.mpr ⟨hp, hm⟩
    have hne : (S.filter (amenityMatch ams)).isEmpty = false := by
      cases hF : S.filter (amenityMatch ams) with
      | nil => rw [hF] at hmem; cases hmem
      | cons a t => rfl
    rw [hall]
    unfold amenityStep
    rw [hams]
    simp [hne]

/-- A filter set requesting the lowercase amenity "piscina", as the Extractor
produces. -/
def wF : Filters := { noFilters with amenities := some ["piscina"] }

/-- Witness for `C4_amenity_soft_skip`: a lowercase request does narrow to the
matching subsequence. -/
theorem C4_witness :
    applyFiltersPre [cp1, cp2] wF = .ok [cp1, cp2] ∧
    (∃ p ∈ [cp1, cp2], amenityMatch ["piscina"] p = true) ∧
    apply_filters [cp1, cp2] wF = .ok ([cp1, cp2].filter (amenityMatch ["piscina"])) := by
  have hpre : applyFiltersPre [cp1, cp2] wF = .ok [cp1, cp2] := by decide
  have hex : ∃ p ∈ [cp1, cp2], amenityMatch ["piscina"] p = true :=
    ⟨cp1, List.mem_cons_self _ _, by decide⟩
  exact ⟨hpre, hex, (C4_amenity_soft_skip [cp1, cp2] wF ["piscina"] [cp1, cp2] rfl hpre).2 hex⟩

/-- Every record of a successful `mapE` output comes from applying the function
to some input record. -/
theorem mapE_mem (f : α → Except ε β) :
    ∀ {l : List α} {l2 : List β}, mapE f l = .ok l2 → ∀ b ∈ l2, ∃ a ∈ l, f a = .ok b := by
  intro l
  induction l with
  | nil =>
    intro l2 h b hb
    simp only [mapE, Except.ok.injEq] at h
    subst h
    cases hb
  | cons a t ih =>
    intro l2 h b hb
    cases hfa : f a with
    | error e =>
      simp only [mapE, hfa] at h
      exact Except.noConfusion h
    | ok b1 =>
      cases hmt : mapE f t with
      | error e =>
        simp only [mapE, hfa, hmt] at h
        exact Except.noConfusion h
      | ok r =>
        simp only [mapE, hfa, hmt, Except.ok.injEq] at h
        subst h
        rcases List.mem_cons.mp hb with rfl | hbr
        · exact ⟨a, List.mem_cons_self a t, hfa⟩
        · obtain ⟨a2, ha2, hfa2⟩ := ih hmt b hbr
          exact ⟨a2, List.mem_cons_of_mem a ha2, hfa2⟩

/-- A successful scoring pass writes `_score` and changes nothing else. -/
theorem scoreProp_shape (qws : List (List Char)) (p q : Property)
    (h : scoreProp qws p = .ok q) :
    q.score.isSome = true ∧ q = { p with score := q.score } := by
  unfold scoreProp at h
  cases ht : p.title with
  | none => simp [getField, ht] at h
  | some t =>
    cases hn : p.neighborhood with
    | none => simp [getField, ht, hn] at h
    | some nb =>
      cases hd : p.description with
      | none => simp [getField, ht, hn, hd] at h
      | some d =>
        simp only [getField, ht, hn, hd, exBind_ok, exPure, Except.ok.injEq] at h
        subst h
        constructor
        · rfl
        · rfl

/-- Claim C9 is false on the code: ranking two fully populated records attaches
a `_score` key to every record in the output (the records are not "unchanged
except for order", and nothing later removes the key). -/
def rp1 : Property :=
  { noProp with
    title := some "Apartamento en Chapinero"
    neighborhood := some "Chapinero"
    description := some "Hermoso apartamento"
    amenities := some ["Gimnasio"] }

/-- Second ranking counterexample record. -/
def rp2 : Property :=
  { noProp with
    title := some "Casa en Usaquén"
    neighborhood := some "Usaquén"
    description := some "Amplia casa" }

/-- Claim C9 counterexample: both input records carry no score, and after
`rank_properties` every record of the output carries one. -/
theorem C9_counterexample :
    rp1.score = none ∧ rp2.score = none ∧
    ((rank_properties [rp1, rp2] "apartamento chapinero").toOption.getD []).all
      (fun p => p.score.isSome) = true ∧
    ((rank_properties [rp1, rp2] "apartamento chapinero").toOption.getD []).length = 2 := by
  refine ⟨rfl, rfl, by decide, by decide⟩

/-- Claim C9, amended: the relevance score is not transient — when at least two
properties are ranked successfully, every record of the ranker's output carries
the `_score` key (which later formatting never removes), and apart from that
key each output record is an input record unchanged. -/
theorem C9_scores_persist (props : List Property) (q : String) (l : List Property)
    (hlen : 2 ≤ props.length)
    (h : rank_properties props q = .ok l) :
    ∀ p' ∈ l, p'.score.isSome = true ∧ ∃ p0 ∈ props, p' = { p0 with score := p'.score } := by
  unfold rank_properties at h
  rw [if_neg (by omega)] at h
  cases hm : mapE (scoreProp ((splitWs (lowerStr q.toList)).eraseDups)) props with
  | error e => rw [hm] at h; exact absurd h (by simp)
  | ok scored =>
    rw [hm] at h
    simp only [Except.ok.injEq] at h
    intro p' hp'
    have hmem : p' ∈ scored := by
      rw [← h] at hp'
      exact (mem_stableSort scoreDescLe p' scored).mp hp'
    obtain ⟨p0, hp0, hok⟩ := mapE_mem _ hm p' hmem
    obtain ⟨hs, hshape⟩ := scoreProp_shape _ _ _ hok
    exact ⟨hs, p0, hp0, hshape⟩

/-- Witness for `C9_scores_persist` on the two concrete records. -/
theorem C9_witness :
    2 ≤ ([rp1, rp2] : List Property).length ∧
    ∃ l, rank_properties [rp1, rp2] "apartamento chapinero" = .ok l ∧
      ∀ p' ∈ l, p'.score.isSome = true ∧ ∃ p0 ∈ [rp1, rp2], p' = { p0 with score := p'.score } := by
  have hlen : 2 ≤ ([rp1, rp2] : List Property).length := by decide
  have hok : (rank_properties [rp1, rp2] "apartamento chapinero").isOk = true := by decide
  cases hr : rank_properties [rp1, rp2] "apartamento chapinero" with
  | error e =>
    rw [hr] at hok
    exact Bool.noConfusion hok
  | ok l => exact ⟨hlen, l, rfl, C9_scores_persist [rp1, rp2] "apartamento chapinero" l hlen hr⟩

/-! ## The Formatter (app/templates.py) -/

/-- Reversed digit list chunked in groups of three (for thousands grouping). -/
def chunk3 : List Char → List (List Char)
  | [] => []
  | [a] => [[a]]
  | [a, b] => [[a, b]]
  | a :: b :: c :: t => [a, b, c] :: chunk3 t

/-- Translation of `format_price`: `f"${price:,}".replace(',', '.')` — dollar
sign, decimal digits, period as thousands separator. -/
def format_price (price : ℕ) : String :=
  let ds := (toString price).toList
  String.mk ('$' :: (List.intercalate ['.'] (chunk3 ds.reverse)).reverse)

/-- Translation of `format_location` (string truthiness is non-emptiness). -/
def format_location (neighborhood : String) (city : Option String) : String :=
  let cityT := match city with | some c => !c.isEmpty | none => false
  if cityT && !neighborhood.isEmpty then "📍 " ++ neighborhood ++ ", " ++ city.getD ""
  else if !neighborhood.isEmpty then "📍 " ++ neighborhood
  else if cityT then "📍 " ++ city.getD ""
  else ""

/-- The keyword-to-icon table of `format_amenities`, in source (insertion) order. -/
def amenity_icons : List (String × String) :=
  [("piscina", "🏊"), ("gimnasio", "🏋️"), ("gym", "🏋️"), ("parqueadero", "🚗"), ("parking", "🚗"),
   ("terraza", "🌇"), ("balcón", "🏙️"), ("balcon", "🏙️"), ("jardín", "🌳"), ("jardin", "🌳"),
   ("seguridad", "🔒"), ("vigilancia", "👮"), ("ascensor", "🛗"), ("bbq", "🍖"), ("playground", "🎯"),
   ("patio", "🏡"), ("cocina", "🍳"), ("lavanderia", "🧺"), ("amoblado", "🪑"), ("internet", "📶"),
   ("aire", "❄️"), ("calefaccion", "🔥"), ("mascotas", "🐾"), ("sala", "🛋️"), ("comedor", "🍽️")]

/-- Python `s.strip("• ")`: remove the given characters from both ends. -/
def stripChars (cset : List Char) (s : List Char) : List Char :=
  ((s.dropWhile (fun c => cset.contains c)).reverse.dropWhile (fun c => cset.contains c)).reverse

/-- Translation of `format_amenities(amenities, max_display, style)`: icon per
amenity (first icon key occurring in the lowered amenity, bullet otherwise), an
"y N más" marker past the display cap, and three join styles. -/
def format_amenities (amenities : List String) (max_display : ℕ) (style : String) : String :=
  if amenities.isEmpty then ""
  else
    let formatted := (amenities.take max_display).map (fun amenity =>
      let icon :=
        match amenity_icons.find? (fun kv => containsSub (lowerStr kv.1.toList) (lowerStr amenity.toList)) with
        | some kv => kv.2
        | none => "•"
      icon ++ " " ++ amenity)
    let formatted :=
      if amenities.length > max_display then
        if style == "list" || style == "bullets" then
          formatted ++ ["...y " ++ toString (amenities.length - max_display) ++ " más"]
        else
          formatted ++ ["(+" ++ toString (amenities.length - max_display) ++ " más)"]
      else formatted
    if style == "list" then String.intercalate "\n" formatted
    else if style == "bullets" then
      "• " ++ String.intercalate "\n• " (formatted.map (fun a => String.mk (stripChars ['•', ' '] a.toList)))
    else String.intercalate ", " formatted

/-- Translation of `truncate_text(text, max_length, add_ellipsis)`.  The source
compares `last_space > max_length * 0.8` in floats; for the magnitudes used
(70, 100, 150 — far below 2^49) that float comparison coincides with the exact
rational comparison `5 * last_space > 4 * max_length` used here (checked against
CPython: `150 * 0.8 == 120.0` and `70 * 0.8 == 56.0`). -/
def truncate_text (text : String) (max_length : ℕ) (add_ellipsis : Bool) : String :=
  let cs := text.toList
  if cs.isEmpty || cs.length ≤ max_length then text
  else
    let truncated := cs.take max_length
    let truncated :=
      match rfindSub truncated [' '] with
      | some last_space => if 5 * last_space > 4 * max_length then truncated.take last_space else truncated
      | none => truncated
    let truncated := if add_ellipsis then truncated ++ ['.', '.', '.'] else truncated
    String.mk truncated

/-- Python `" ".join(words)`. -/
def joinSp (ws : List (List Char)) : List Char :=
  List.intercalate [' '] ws

/-- Translation of `add_line_breaks(text, max_line_length)`: greedy word wrap
carrying `(lines, current_line, current_length)` exactly as the source loop does. -/
def add_line_breaks (text : String) (max_line_length : ℕ) : String :=
  let cs := text.toList
  if cs.isEmpty || cs.length ≤ max_line_length then text
  else
    let words := splitWs cs
    let st := words.foldl
      (fun (st : List (List Char) × List (List Char) × ℕ) w =>
        let lines := st.1
        let current_line := st.2.1
        let current_length := st.2.2
        if current_length + w.length + current_line.length > max_line_length then
          (lines ++ [joinSp current_line], [w], w.length)
        else
          (lines, current_line ++ [w], current_length + w.length))
      ([], [], 0)
    let lines := if st.2.1.isEmpty then st.1 else st.1 ++ [joinSp st.2.1]
    String.mk (List.intercalate ['\n'] lines)

/-- The error string of the card/brief `except KeyError` handler:
`f"Error: Falta información de la propiedad: {str(e)}"` with `str(KeyError(k))`
rendering as `'k'`. -/
def errFalta (k : String) : String :=
  "Error: Falta información de la propiedad: '" ++ k ++ "'"

/-- Body of `format_property_card` (the `try` block): field accesses in source
order; the first missing key aborts with that key's name. -/
def cardBody (p : Property) (detailed : Bool) : Except String String := do
  let price ← getField p.price "price"
  let price_formatted := format_price price
  let property_id := p.id.getD "N/A"
  let title ← getField p.title "title"
  let bedrooms ← getField p.bedrooms "bedrooms"
  let bathrooms ← getField p.bathrooms "bathrooms"
  let location := format_location (p.neighborhood.getD "") none
  let area ← getField p.area "area"
  let card := "*" ++ title ++ "* (Ref: " ++ property_id ++ ")\n" ++
    "💰 " ++ price_formatted ++ "\n" ++
    "🛏️ " ++ toString bedrooms ++ " habitaciones | 🚿 " ++ toString bathrooms ++ " baños\n" ++
    "📏 " ++ toString area ++ " m² | " ++ location ++ "\n"
  let card :=
    match p.amenities with
    | some ams =>
      if !ams.isEmpty then
        if detailed then
          card ++ "\n✨ *Características:*\n" ++ format_amenities ams 6 "bullets" ++ "\n"
        else
          card ++ "\n✨ *Características:* " ++ format_amenities ams 3 "inline" ++ "\n"
      else card
    | none => card
  let description ← getField p.description "description"
  let card :=
    if detailed then card ++ "\n📝 *Descripción:*\n" ++ add_line_breaks description 40 ++ "\n"
    else card ++ "\n" ++ truncate_text description 150 true ++ "\n"
  let card :=
    match p.construction_year with
    | some y => if detailed then card ++ "\n🏗️ *Año de construcción:* " ++ toString y ++ "\n" else card
    | none => card
  let card :=
    match p.stratum with
    | some st => if detailed then card ++ "⭐ *Estrato:* " ++ toString st ++ "\n" else card
    | none => card
  let url ← getField p.url "url"
  let card := card ++ "\n🔗 *Ver detalles completos:* " ++ url ++ "\n"
  let card :=
    if detailed then
      card ++ "\n¿Te gustaría agendar una visita a esta propiedad? Puedo coordinar con un asesor para que te contacte."
    else card ++ "\n¿Te gustaría más información sobre esta propiedad?"
  pure card

/-- Translation of `format_property_card`: the `try` body with the `KeyError`
handler that degrades to a visible error string. -/
def format_property_card (p : Property) (detailed : Bool) : String :=
  match cardBody p detailed with
  | .ok s => s
  | .error k => errFalta k

/-- Body of `format_property_brief` (the `try` block). -/
def briefBody (p : Property) (index : Option ℕ) : Except String String := do
  let price ← getField p.price "price"
  let price_formatted := format_price price
  let title ← getField p.title "title"
  let brief :=
    match index with
    | some i => "*" ++ toString i ++ ". " ++ title ++ "*\n"
    | none => "*" ++ title ++ "*\n"
  let bedrooms ← getField p.bedrooms "bedrooms"
  let area ← getField p.area "area"
  let brief := brief ++ "💰 " ++ price_formatted ++ " | 🛏️ " ++ toString bedrooms ++
    " hab | 📏 " ++ toString area ++ " m²\n"
  let neighborhood := p.neighborhood.getD "Ubicación no especificada"
  let description ← getField p.description "description"
  let description_preview := truncate_text description 70 true
  let brief := brief ++ "📍 " ++ neighborhood ++ " | " ++ description_preview ++ "\n"
  let brief :=
    match p.amenities with
    | some ams => if !ams.isEmpty then brief ++ "✨ " ++ format_amenities ams 3 "inline" ++ "\n" else brief
    | none => brief
  let url ← getField p.url "url"
  pure (brief ++ "🔗 " ++ url ++ "\n")

/-- Translation of `format_property_brief` with its `KeyError` handler. -/
def format_property_brief (p : Property) (index : Option ℕ) : String :=
  match briefBody p index with
  | .ok s => s
  | .error k => errFalta k

/-- The truncation notice appended by `format_whatsapp_message` (97 characters,
leading blank line included). -/
def truncNotice : String :=
  "\n\n... [Mensaje truncado debido a limitaciones de longitud. Solicita más detalles si es necesario]"

/-- Python `rfind` result as the integer the source compares with (`-1` when absent). -/
def toIdx : Option ℕ → Int
  | some i => (i : Int)
  | none => -1

/-- The source's `last_break`: the maximum over the rightmost positions of a
paragraph break, a line break and a sentence break in the kept prefix. -/
def lastBreakOf (cs : List Char) : Int :=
  max (max (toIdx (rfindSub cs ['\n', '\n'])) (toIdx (rfindSub cs ['\n'])))
    (toIdx (rfindSub cs ['.', ' ']))

/-- Translation of `format_whatsapp_message`: messages over 4096 characters are
cut to the first `4096 - 150` characters, re-cut at the last break when that
break sits past the 70% mark, and get the truncation notice appended.  CPython
compares `last_break > 4096 * 0.7` in floats; that float product lies strictly
between 2867 and 2868 (it is 2867.19999…), so the integer comparison is exactly
`2868 ≤ last_break`. -/
def format_whatsapp_message (message : String) : String :=
  let cs := message.toList
  if cs.length > 4096 then
    let truncated := cs.take (4096 - 150)
    let last_break := lastBreakOf truncated
    let truncated := if 2868 ≤ last_break then truncated.take last_break.toNat else truncated
    String.mk (truncated ++ truncNotice.toList)
  else message

/-! ## Conversation Memory (app/memory.py) -/

/-- A chat-history entry: LangChain message objects, plus the bare summary
string the source splices into the list after a successful summarization
(`self.chat_memory.messages = [system_summary] + recent_messages` puts a plain
string among the messages). -/
inductive ChatMsg where
  | human (content : String)
  | ai (content : String)
  | other (ty content : String)
  | rawSummary (s : String)
deriving DecidableEq, Repr

/-- Translation of `PropertyConciergeMemory._summarize_older_messages`.  The
whole `try` block — building a `ConversationSummaryMemory` over the older
message pairs and reading the summary out of the language-model collaborator —
is modelled as the `summarizer` parameter, which either returns the summary
text or fails; the `except Exception` arm keeps only the recent messages.
Python's `msgs[-k:]`/`msgs[:-k]` slices are `drop`/`take` for `k > 0`, but for
`k = 0` they are the whole list and the empty list respectively, which the
`maxHistory = 0` tests reproduce. -/
def summarizeOlderMessages (maxHistory : ℕ)
    (summarizer : List ChatMsg → Except String String)
    (msgs : List ChatMsg) : List ChatMsg :=
  if msgs.length ≤ maxHistory then msgs
  else
    let recent := if maxHistory = 0 then msgs else msgs.drop (msgs.length - maxHistory)
    let older := if maxHistory = 0 then [] else msgs.take (msgs.length - maxHistory)
    if older.isEmpty then msgs
    else
      match summarizer older with
      | .ok summary =>
        .rawSummary ("The conversation history has been summarized as follows: " ++ summary) :: recent
      | .error _ => recent

/-! ## Claims C6, C7, C8 (Formatter and Memory) -/

/-- Claim C6: the message-length guard returns short messages unchanged; any
longer message is truncated to strictly fewer than 4096 characters ending with
the truncation notice, the kept stem being the prefix up to the last
paragraph/line/sentence break when such a break sits past the threshold
(`4096 * 0.7`, i.e. position 2868 or later) and the hard 3946-character cut
otherwise. -/
theorem C6_message_length_guard (message : String) :
    (message.length ≤ 4096 → format_whatsapp_message message = message) ∧
    (4096 < message.length →
      (format_whatsapp_message message).length < 4096 ∧
      truncNotice.toList <:+ (format_whatsapp_message message).toList ∧
      (2868 ≤ lastBreakOf (message.toList.take (4096 - 150)) →
        format_whatsapp_message message =
          String.mk ((message.toList.take (4096 - 150)).take
            (lastBreakOf (message.toList.take (4096 - 150))).toNat ++ truncNotice.toList)) ∧
      (lastBreakOf (message.toList.take (4096 - 150)) < 2868 →
        format_whatsapp_message message =
          String.mk (message.toList.take (4096 - 150) ++ truncNotice.toList))) := by
  have hlen : message.toList.length = message.length := rfl
  have hnotice : truncNotice.toList.length = 97 := by decide
  have htake : (message.toList.take (4096 - 150)).length ≤ 3946 := by
    rw [List.length_take]
    omega
  constructor
  · intro hle
    simp only [format_whatsapp_message]
    rw [if_neg (by omega)]
  · intro hgt
    simp only [format_whatsapp_message]
    rw [if_pos (by omega)]
    split_ifs with hbr
    · refine ⟨?_, ?_, ?_, ?_⟩
      · show ((message.toList.take (4096 - 150)).take
            (lastBreakOf (message.toList.take (4096 - 150))).toNat ++ truncNotice.toList).length < 4096
        rw [List.length_append, hnotice]
        have h2 : ((message.toList.take (4096 - 150)).take
            (lastBreakOf (message.toList.take (4096 - 150))).toNat).length ≤ 3946 := by
          rw [List.length_take]
          omega
        omega
      · exact List.suffix_append _ _
      · intro _
        rfl
      · intro hlt
        omega
    · push_neg at hbr
      refine ⟨?_, ?_, ?_, ?_⟩
      · show (message.toList.take (4096 - 150) ++ truncNotice.toList).length < 4096
        rw [List.length_append, hnotice]
        omega
      · exact List.suffix_append _ _
      · intro hge
        omega
      · intro _
        rfl

/-- Witness for `C6_message_length_guard`: a 4-character message is unchanged, a
4097-character message is truncated below 4096 and ends with the notice. -/
theorem C6_witness :
    ("hola" : String).length ≤ 4096 ∧
    format_whatsapp_message "hola" = "hola" ∧
    4096 < (String.mk (List.replicate 4097 'a')).length ∧
    (format_whatsapp_message (String.mk (List.replicate 4097 'a'))).length < 4096 ∧
    truncNotice.toList <:+ (format_whatsapp_message (String.mk (List.replicate 4097 'a'))).toList := by
  have h1 : ("hola" : String).length ≤ 4096 := by decide
  have h2 : 4096 < (String.mk (List.replicate 4097 'a')).length := by
    show 4096 < (List.replicate 4097 'a').length
    rw [List.length_replicate]
    omega
  have t1 := (C6_message_length_guard "hola").1 h1
  have t2 := (C6_message_length_guard (String.mk (List.replicate 4097 'a'))).2 h2
  exact ⟨h1, t1, h2, t2.1, t2.2.1⟩

/-- The first required key missing from a property, in the access order of
`format_property_card`. -/
def firstMissingCard (p : Property) : Option String :=
  if p.price.isNone then some "price"
  else if p.title.isNone then some "title"
  else if p.bedrooms.isNone then some "bedrooms"
  else if p.bathrooms.isNone then some "bathrooms"
  else if p.area.isNone then some "area"
  else if p.description.isNone then some "description"
  else if p.url.isNone then some "url"
  else none

/-- The first required key missing from a property, in the access order of
`format_property_brief` (which never reads `bathrooms`). -/
def firstMissingBrief (p : Property) : Option String :=
  if p.price.isNone then some "price"
  else if p.title.isNone then some "title"
  else if p.bedrooms.isNone then some "bedrooms"
  else if p.area.isNone then some "area"
  else if p.description.isNone then some "description"
  else if p.url.isNone then some "url"
  else none

/-- Does the name `k` denote a field that is actually missing from `p`? -/
def missingNamed (p : Property) (k : String) : Bool :=
  if k = "price" then p.price.isNone
  else if k = "title" then p.title.isNone
  else if k = "bedrooms" then p.bedrooms.isNone
  else if k = "bathrooms" then p.bathrooms.isNone
  else if k = "area" then p.area.isNone
  else if k = "description" then p.description.isNone
  else if k = "url" then p.url.isNone
  else false

theorem card_error_of_firstMissing (p : Property) (detailed : Bool) (k : String)
    (h : firstMissingCard p = some k) :
    format_property_card p detailed = errFalta k := by
  unfold firstMissingCard at h
  by_cases h1 : p.price.isNone = true
  · rw [if_pos h1] at h
    injection h with h
    subst h
    rw [Option.isNone_iff_eq_none] at h1
    simp [format_property_card, cardBody, getField, h1]
  · rw [if_neg h1] at h
    obtain ⟨v1, hv1⟩ := Option.isSome_iff_exists.mp (by simpa [Option.isNone_eq_false_iff, Option.isSome_iff_ne_none] using h1)
    by_cases h2 : p.title.isNone = true
    · rw [if_pos h2] at h
      injection h with h
      subst h
      rw [Option.isNone_iff_eq_none] at h2
      simp [format_property_card, cardBody, getField, hv1, h2]
    · rw [if_neg h2] at h
      obtain ⟨v2, hv2⟩ := Option.isSome_iff_exists.mp (by simpa [Option.isNone_eq_false_iff, Option.isSome_iff_ne_none] using h2)
      by_cases h3 : p.bedrooms.isNone = true
      · rw [if_pos h3] at h
        injection h with h
        subst h
        rw [Option.isNone_iff_eq_none] at h3
        simp [format_property_card, cardBody, getField, hv1, hv2, h3]
      · rw [if_neg h3] at h
        obtain ⟨v3, hv3⟩ := Option.isSome_iff_exists.mp (by simpa [Option.isNone_eq_false_iff, Option.isSome_iff_ne_none] using h3)
        by_cases h4 : p.bathrooms.isNone = true
        · rw [if_pos h4] at h
          injection h with h
          subst h
          rw [Option.isNone_iff_eq_none] at h4
          simp [format_property_card, cardBody, getField, hv1, hv2, hv3, h4]
        · rw [if_neg h4] at h
          obtain ⟨v4, hv4⟩ := Option.isSome_iff_exists.mp (by simpa [Option.isNone_eq_false_iff, Option.isSome_iff_ne_none] using h4)
          by_cases h5 : p.area.isNone = true
          · rw [if_pos h5] at h
            injection h with h
            subst h
            rw [Option.isNone_iff_eq_none] at h5
            simp [format_property_card, cardBody, getField, hv1, hv2, hv3, hv4, h5]
          · rw [if_neg h5] at h
            obtain ⟨v5, hv5⟩ := Option.isSome_iff_exists.mp (by simpa [Option.isNone_eq_false_iff, Option.isSome_iff_ne_none] using h5)
            by_cases h6 : p.description.isNone = true
            · rw [if_pos h6] at h
              injection h with h
              subst h
              rw [Option.isNone_iff_eq_none] at h6
              simp [format_property_card, cardBody, getField, hv1, hv2, hv3, hv4, hv5, h6]
            · rw [if_neg h6] at h
              obtain ⟨v6, hv6⟩ := Option.isSome_iff_exists.mp (by simpa [Option.isNone_eq_false_iff, Option.isSome_iff_ne_none] using h6)
              by_cases h7 : p.url.isNone = true
              · rw [if_pos h7] at h
                injection h with h
                subst h
                rw [Option.isNone_iff_eq_none] at h7
                simp [format_property_card, cardBody, getField, hv1, hv2, hv3, hv4, hv5, hv6, h7]
              · rw [if_neg h7] at h
                cases h

theorem brief_error_of_firstMissing (p : Property) (index : Option ℕ) (k : String)
    (h : firstMissingBrief p = some k) :
    format_property_brief p index = errFalta k := by
  unfold firstMissingBrief at h
  by_cases h1 : p.price.isNone = true
  · rw [if_pos h1] at h
    injection h with h
    subst h
    rw [Option.isNone_iff_eq_none] at h1
    simp [format_property_brief, briefBody, getField, h1]
  · rw [if_neg h1] at h
    obtain ⟨v1, hv1⟩ := Option.isSome_iff_exists.mp (by simpa [Option.isNone_eq_false_iff, Option.isSome_iff_ne_none] using h1)
    by_cases h2 : p.title.isNone = true
    · rw [if_pos h2] at h
      injection h with h
      subst h
      rw [Option.isNone_iff_eq_none] at h2
      simp [format_property_brief, briefBody, getField, hv1, h2]
    · rw [if_neg h2] at h
      obtain ⟨v2, hv2⟩ := Option.isSome_iff_exists.mp (by simpa [Option.isNone_eq_false_iff, Option.isSome_iff_ne_none] using h2)
      by_cases h3 : p.bedrooms.isNone = true
      · rw [if_pos h3] at h
        injection h with h
        subst h
        rw [Option.isNone_iff_eq_none] at h3
        simp [format_property_brief, briefBody, getField, hv1, hv2, h3]
      · rw [if_neg h3] at h
        obtain ⟨v3, hv3⟩ := Option.isSome_iff_exists.mp (by simpa [Option.isNone_eq_false_iff, Option.isSome_iff_ne_none] using h3)
        by_cases h4 : p.area.isNone = true
        · rw [if_pos h4] at h
          injection h with h
          subst h
          rw [Option.isNone_iff_eq_none] at h4
          simp [format_property_brief, briefBody, getField, hv1, hv2, hv3, h4]
        · rw [if_neg h4] at h
          obtain ⟨v4, hv4⟩ := Option.isSome_iff_exists.mp (by simpa [Option.isNone_eq_false_iff, Option.isSome_iff_ne_none] using h4)
          by_cases h5 : p.description.isNone = true
          · rw [if_pos h5] at h
            injection h with h
            subst h
            rw [Option.isNone_iff_eq_none] at h5
            simp [format_property_brief, briefBody, getField, hv1, hv2, hv3, hv4, h5]
          · rw [if_neg h5] at h
            obtain ⟨v5, hv5⟩ := Option.isSome_iff_exists.mp (by simpa [Option.isNone_eq_false_iff, Option.isSome_iff_ne_none] using h5)
            by_cases h6 : p.url.isNone = true
            · rw [if_pos h6] at h
              injection h with h
              subst h
              rw [Option.isNone_iff_eq_none] at h6
              simp [format_property_brief, briefBody, getField, hv1, hv2, hv3, hv4, hv5, h6]
            · rw [if_neg h6] at h
              cases h

theorem firstMissingCard_isSome_of (p : Property)
    (h : p.price = none ∨ p.title = none ∨ p.description = none ∨ p.url = none) :
    (firstMissingCard p).isSome = true := by
  unfold firstMissingCard
  split_ifs <;> first | rfl | (rcases h with h | h | h | h <;> simp_all)

theorem firstMissingBrief_isSome_of (p : Property)
    (h : p.price = none ∨ p.title = none ∨ p.description = none ∨ p.url = none) :
    (firstMissingBrief p).isSome = true := by
  unfold firstMissingBrief
  split_ifs <;> first | rfl | (rcases h with h | h | h | h <;> simp_all)

theorem firstMissingCard_missing (p : Property) (k : String)
    (h : firstMissingCard p = some k) : missingNamed p k = true := by
  unfold firstMissingCard at h
  split_ifs at h <;> injection h with h <;> subst h <;> simp [missingNamed, *]

theorem firstMissingBrief_missing (p : Property) (k : String)
    (h : firstMissingBrief p = some k) : missingNamed p k = true := by
  unfold firstMissingBrief at h
  split_ifs at h <;> injection h with h <;> subst h <;> simp [missingNamed, *]

/-- Claim C7: for every property dictionary missing one of the required fields
price, title, description or url, both card and brief formatters return the
short error string naming a field that is indeed missing (the first missing
field in access order), and — being total functions with the `KeyError` handler
as their only exit for missing data — never raise to their caller. -/
theorem C7_missing_field_error (p : Property) (detailed : Bool) (index : Option ℕ)
    (h : p.price = none ∨ p.title = none ∨ p.description = none ∨ p.url = none) :
    (∃ k, format_property_card p detailed = errFalta k ∧ missingNamed p k = true) ∧
    (∃ k, format_property_brief p index = errFalta k ∧ missingNamed p k = true) := by
  obtain ⟨k1, hk1⟩ := Option.isSome_iff_exists.mp (firstMissingCard_isSome_of p h)
  obtain ⟨k2, hk2⟩ := Option.isSome_iff_exists.mp (firstMissingBrief_isSome_of p h)
  exact ⟨⟨k1, card_error_of_firstMissing p detailed k1 hk1, firstMissingCard_missing p k1 hk1⟩,
         ⟨k2, brief_error_of_firstMissing p index k2 hk2, firstMissingBrief_missing p k2 hk2⟩⟩

/-- Witness for `C7_missing_field_error` on the empty property dictionary. -/
theorem C7_witness :
    (noProp.price = none ∨ noProp.title = none ∨ noProp.description = none ∨ noProp.url = none) ∧
    (∃ k, format_property_card noProp false = errFalta k ∧ missingNamed noProp k = true) ∧
    (∃ k, format_property_brief noProp none = errFalta k ∧ missingNamed noProp k = true) := by
  have h : noProp.price = none ∨ noProp.title = none ∨ noProp.description = none ∨ noProp.url = none :=
    Or.inl rfl
  have t := C7_missing_field_error noProp false none h
  exact ⟨h, t.1, t.2⟩

/-- Claim C8: when summarization runs (history longer than the cap `N > 0`) and
the summarization collaborator fails, Conversation Memory falls back to hard
truncation — it keeps exactly the most recent `N` messages verbatim, drops all
older ones, and returns normally (the embedding is a total function, matching
the source's catch-all `except`). -/
theorem C8_summarization_failure_truncates (N : ℕ)
    (summarizer : List ChatMsg → Except String String)
    (msgs : List ChatMsg) (e : String)
    (hN : 0 < N) (hlen : N < msgs.length)
    (hfail : summarizer (msgs.take (msgs.length - N)) = .error e) :
    summarizeOlderMessages N summarizer msgs = msgs.drop (msgs.length - N) ∧
    (msgs.drop (msgs.length - N)).length = N := by
  have hne : ¬(msgs.length ≤ N) := by omega
  have hN0 : ¬(N = 0) := by omega
  have htake : (msgs.take (msgs.length - N)).isEmpty = false := by
    have h1 : (msgs.take (msgs.length - N)).length = msgs.length - N := by
      rw [List.length_take]
      omega
    cases hc : msgs.take (msgs.length - N) with
    | nil =>
      rw [hc] at h1
      simp at h1
      omega
    | cons a t => rfl
  constructor
  · simp [summarizeOlderMessages, hne, hN0, htake, hfail]
  · rw [List.length_drop]
    omega

/-- Witness for `C8_summarization_failure_truncates`: cap 1, two messages, a
failing summarizer; the memory keeps exactly the last message. -/
theorem C8_witness :
    (0 < 1) ∧
    (1 < ([ChatMsg.human "a", ChatMsg.ai "b"] : List ChatMsg).length) ∧
    ((fun _ : List ChatMsg => (Except.error "boom" : Except String String))
      (([ChatMsg.human "a", ChatMsg.ai "b"] : List ChatMsg).take
        (([ChatMsg.human "a", ChatMsg.ai "b"] : List ChatMsg).length - 1)) = Except.error "boom") ∧
    summarizeOlderMessages 1 (fun _ => Except.error "boom") [ChatMsg.human "a", ChatMsg.ai "b"] =
      [ChatMsg.ai "b"] ∧
    ([ChatMsg.ai "b"] : List ChatMsg).length = 1 := by
  have h := C8_summarization_failure_truncates 1 (fun _ => Except.error "boom")
    [ChatMsg.human "a", ChatMsg.ai "b"] "boom" (by decide) (by decide) rfl
  exact ⟨by decide, by decide, rfl, h.1, by decide⟩

end SamConcierge
